import Mathlib

/-!
Verification of the robot control system's command-to-actuation pipeline
(`robot_core/src/lib.rs`).

The pulse mapper (`speed_to_pulse`, `direction_to_pulse`) is embedded over ℚ:
the Rust source computes with `f32`, but on the clamped input domain
`[-100, 100]` (finite, 201 points per function, both turbo flags) the `f32`
evaluation agrees exactly with exact rational arithmetic followed by
round-half-away-from-zero, so the rational embedding reproduces the source's
input/output behaviour point for point.  Rust's `f32 -> u16` `as` cast
saturates at the type bounds, modelled by `u16ofInt`; `u16::saturating_add`
is modelled by `saturating_add`.

The control loop of `main` is embedded as a step function over an explicit
state (the loop-local `turbo` flag plus the availability of the two GPIO
output pins) producing a trace of actuation calls; the channel closing is
the end of the command list, after which the shutdown sequence of `main`
runs once.
-/

namespace RobotCore

/-- Source constant `FRONT_LEFT_PULSE: u16 = 1150`. -/
def FRONT_LEFT_PULSE : ℤ := 1150

/-- Source constant `FRONT_RIGHT_PULSE: u16 = 305`. -/
def FRONT_RIGHT_PULSE : ℤ := 305

/-- Source constant `BACK_LEFT_PULSE: u16 = 1375`. -/
def BACK_LEFT_PULSE : ℤ := 1375

/-- Source constant `BACK_RIGHT_PULSE: u16 = 2185`. -/
def BACK_RIGHT_PULSE : ℤ := 2185

/-- Source constant `MOTOR_CHANNEL: u8 = 0`. -/
def MOTOR_CHANNEL : ℕ := 0

/-- Source constant `FRONT_STEERING_CHANNEL: u8 = 1`. -/
def FRONT_STEERING_CHANNEL : ℕ := 1

/-- Source constant `BACK_STEERING_CHANNEL: u8 = 2`. -/
def BACK_STEERING_CHANNEL : ℕ := 2

/-- GPIO pin 23 (horn). -/
def HORN_PIN : ℕ := 23

/-- GPIO pin 24 (lights). -/
def LIGHTS_PIN : ℕ := 24

/-- Rust `speed.clamp(-100, 100)` on `i64`. -/
def clamp100 (s : ℤ) : ℤ := max (-100) (min s 100)

/-- Rust `f32 -> u16` `as` cast on an integer-valued float: saturates at the
bounds of `u16` (Rust float-to-int casts saturate; they never wrap). -/
def u16ofInt (v : ℤ) : ℤ := max 0 (min v 65535)

/-- Rust `f32::round`: round half away from zero, here on exact rationals. -/
def rustRound (q : ℚ) : ℤ := if 0 ≤ q then ⌊q + 1/2⌋ else ⌈q - 1/2⌉

/-- Rust `u16::saturating_add` on the integer images of two `u16` values. -/
def saturating_add (a b : ℤ) : ℤ := min (a + b) 65535

/-- Source constant `NEUTRAL_PULSE: f32 = 1450.0`. -/
def NEUTRAL_PULSE : ℚ := 1450

/-- Source constant `DEAD_ZONE: i64 = 7`. -/
def DEAD_ZONE : ℤ := 7

/-- Embedding of `fn speed_to_pulse(speed: i64, turbo: bool) -> u16` from
`robot_core/src/lib.rs`, lines 218–239, with the `f32` arithmetic carried
out exactly over ℚ (pointwise identical on the clamped domain). -/
def speed_to_pulse (speed : ℤ) (turbo : Bool) : ℤ :=
  let x := clamp100 speed
  if -DEAD_ZONE ≤ x ∧ x ≤ DEAD_ZONE then
    u16ofInt 1450
  else if x < -DEAD_ZONE then
    let slope : ℚ := 200 / (100 - ((DEAD_ZONE : ℚ) + 1))
    let pulse_val : ℚ := NEUTRAL_PULSE + ((x : ℚ) + (DEAD_ZONE : ℚ)) * slope
    u16ofInt (rustRound pulse_val)
  else
    let slope : ℚ := 750 / (100 - ((DEAD_ZONE : ℚ) + 1))
    let pulse_val : ℚ := NEUTRAL_PULSE + ((x : ℚ) - (DEAD_ZONE : ℚ)) * slope
    let final_pulse := u16ofInt (rustRound pulse_val)
    if turbo then saturating_add final_pulse 100 else final_pulse

/-- Embedding of `fn direction_to_pulse(direction: i64) -> (u16, u16)` from
`robot_core/src/lib.rs`, lines 241–253, with the `f32` arithmetic carried
out exactly over ℚ (pointwise identical on the clamped domain). -/
def direction_to_pulse (direction : ℤ) : ℤ × ℤ :=
  let x : ℚ := (clamp100 direction : ℚ)
  let normalized_direction := (x + 100) / 200
  let front_pulse := (FRONT_LEFT_PULSE : ℚ) * (1 - normalized_direction)
    + (FRONT_RIGHT_PULSE : ℚ) * normalized_direction
  let back_pulse := (BACK_LEFT_PULSE : ℚ) * (1 - normalized_direction)
    + (BACK_RIGHT_PULSE : ℚ) * normalized_direction
  (u16ofInt (rustRound front_pulse), u16ofInt (rustRound back_pulse))

/-- The dynamic value of a `CommandPayload` (`serde_json::Value` in the
source, restricted to the scalar shapes the control loop inspects: an
integer number, a string, a boolean, or null). -/
inductive JsonValue
  | num (n : ℤ)
  | str (s : String)
  | bool (b : Bool)
  | null
deriving DecidableEq

/-- Rust `serde_json::Value::as_i64`: `Some` exactly on integer numbers. -/
def JsonValue.as_i64 : JsonValue → Option ℤ
  | .num n => some n
  | _ => none

/-- Rust `serde_json::Value::as_bool`: `Some` exactly on booleans. -/
def JsonValue.as_bool : JsonValue → Option Bool
  | .bool b => some b
  | _ => none

/-- Embedding of `CommandPayload` (`command: String`, `value: serde_json::Value`) from
`robot_web/src/lib.rs`. -/
structure CommandPayload where
  command : String
  value : JsonValue
deriving DecidableEq

/-- One observable actuation call issued by the control loop:
`controller.set_pwm(channel, on, off)` or a digital output write. -/
inductive Action
  | setPwm (channel : ℕ) (onTime : ℕ) (off : ℤ)
  | setHigh (pin : ℕ)
  | setLow (pin : ℕ)
deriving DecidableEq

/-- Loop-local state of `main`: the `turbo` flag plus whether the two GPIO
output pins were successfully acquired (`horn`/`lights` are `Option<OutputPin>`
in the source; an unavailable pin makes writes no-ops with a warning). -/
structure LoopState where
  turbo : Bool
  hornAvailable : Bool
  lightsAvailable : Bool
deriving DecidableEq

/-- One iteration of the `match command_payload.command.as_str()` dispatch in
`main` (`robot_core/src/lib.rs`, lines 72–186): the updated state and the
actuation calls issued, in order. -/
def step (st : LoopState) (c : CommandPayload) : LoopState × List Action :=
  if c.command = "speed" then
    match c.value.as_i64 with
    | some s => (st, [.setPwm MOTOR_CHANNEL 0 (speed_to_pulse s st.turbo)])
    | none => (st, [])
  else if c.command = "direction" then
    match c.value.as_i64 with
    | some d =>
      (st, [.setPwm FRONT_STEERING_CHANNEL 0 (direction_to_pulse d).1,
            .setPwm BACK_STEERING_CHANNEL 0 (direction_to_pulse d).2])
    | none => (st, [])
  else if c.command = "headlights" then
    match c.value.as_bool with
    | some h =>
      if st.lightsAvailable then
        (st, [if h then .setHigh LIGHTS_PIN else .setLow LIGHTS_PIN])
      else (st, [])
    | none => (st, [])
  else if c.command = "horn" then
    match c.value.as_bool with
    | some h =>
      if st.hornAvailable then
        (st, [if h then .setHigh HORN_PIN else .setLow HORN_PIN])
      else (st, [])
    | none => (st, [])
  else if c.command = "turbo" then
    match c.value.as_bool with
    | some t => ({ st with turbo := t }, [])
    | none => (st, [])
  else if c.command = "calibrate" then
    (st, [.setPwm FRONT_STEERING_CHANNEL 0 (direction_to_pulse 0).1,
          .setPwm BACK_STEERING_CHANNEL 0 (direction_to_pulse 0).2])
  else
    (st, [])

/-- The safe-shutdown actuation sequence issued after the receive loop exits
(`robot_core/src/lib.rs`, lines 203–213): steering to calibration-neutral,
motor to neutral with turbo off, then each available digital output low. -/
def shutdownActions (st : LoopState) : List Action :=
  [Action.setPwm FRONT_STEERING_CHANNEL 0 (direction_to_pulse 0).1,
   Action.setPwm BACK_STEERING_CHANNEL 0 (direction_to_pulse 0).2,
   Action.setPwm MOTOR_CHANNEL 0 (speed_to_pulse 0 false)]
  ++ (if st.lightsAvailable then [Action.setLow LIGHTS_PIN] else [])
  ++ (if st.hornAvailable then [Action.setLow HORN_PIN] else [])

/-- The control loop of `main`: consume the commands delivered over the
channel in order; the end of the list is the channel closing (`rx.recv()`
returns `Err`, the loop `break`s), after which the shutdown sequence runs.
Returns the full trace of actuation calls. -/
def runLoop (st : LoopState) : List CommandPayload → List Action
  | [] => shutdownActions st
  | c :: rest =>
    let (st2, as2) := step st c
    as2 ++ runLoop st2 rest

/-- The actuation calls issued while the channel is open (no shutdown). -/
def stepsActions (st : LoopState) : List CommandPayload → List Action
  | [] => []
  | c :: rest =>
    let (st2, as2) := step st c
    as2 ++ stepsActions st2 rest

/-- The loop state after consuming a list of commands. -/
def finalState (st : LoopState) : List CommandPayload → LoopState
  | [] => st
  | c :: rest => finalState (step st c).1 rest

lemma clamp100_ge (s : ℤ) : -100 ≤ clamp100 s := le_max_left _ _

lemma clamp100_le (s : ℤ) : clamp100 s ≤ 100 := by
  unfold clamp100; omega

lemma clamp100_idem (s : ℤ) : clamp100 (clamp100 s) = clamp100 s := by
  unfold clamp100; omega

lemma clamp100_mono {s1 s2 : ℤ} (h : s1 ≤ s2) : clamp100 s1 ≤ clamp100 s2 := by
  unfold clamp100; omega

lemma u16ofInt_mono {a b : ℤ} (h : a ≤ b) : u16ofInt a ≤ u16ofInt b := by
  unfold u16ofInt; omega

lemma u16ofInt_eq_self {v : ℤ} (h1 : 0 ≤ v) (h2 : v ≤ 65535) : u16ofInt v = v := by
  unfold u16ofInt; omega

lemma saturating_add_mono_left {a b c : ℤ} (h : a ≤ b) :
    saturating_add a c ≤ saturating_add b c := by
  unfold saturating_add; omega

lemma saturating_add_eq {a b : ℤ} (h : a + b ≤ 65535) :
    saturating_add a b = a + b := by
  unfold saturating_add; omega

lemma rustRound_nonneg {q : ℚ} (h : 0 ≤ q) : rustRound q = ⌊q + 1/2⌋ := if_pos h

lemma rustRound_mono {a b : ℚ} (h : a ≤ b) : rustRound a ≤ rustRound b := by
  unfold rustRound
  split_ifs with ha hb
  · exact Int.floor_mono (by linarith)
  · exact absurd (le_trans ha h) hb
  · have h1 : ⌈a - 1/2⌉ ≤ (0 : ℤ) := Int.ceil_le.mpr (by push_cast; linarith [not_le.mp ha])
    have h2 : (0 : ℤ) ≤ ⌊b + 1/2⌋ :=
      Int.le_floor.mpr (by exact_mod_cast (by linarith : (0 : ℚ) ≤ b + 1/2))
    omega
  · exact Int.ceil_mono (by linarith)

lemma rustRound_le {q : ℚ} {n : ℤ} (h0 : 0 ≤ q) (h : q < (n : ℚ) + 1/2) :
    rustRound q ≤ n := by
  rw [rustRound_nonneg h0]
  have : ⌊q + 1/2⌋ < n + 1 := Int.floor_lt.mpr (by push_cast; linarith)
  omega

lemma le_rustRound {q : ℚ} {n : ℤ} (h0 : 0 ≤ q) (h : (n : ℚ) - 1/2 ≤ q) :
    n ≤ rustRound q := by
  rw [rustRound_nonneg h0]
  exact Int.le_floor.mpr (by linarith)

lemma speed_to_pulse_dead {s : ℤ} (t : Bool)
    (h1 : -7 ≤ clamp100 s) (h2 : clamp100 s ≤ 7) :
    speed_to_pulse s t = 1450 := by
  have hc : -DEAD_ZONE ≤ clamp100 s ∧ clamp100 s ≤ DEAD_ZONE := by
    unfold DEAD_ZONE; omega
  simp only [speed_to_pulse, if_pos hc]
  unfold u16ofInt; omega

lemma speed_to_pulse_neg {s : ℤ} (t : Bool) (h : clamp100 s < -7) :
    speed_to_pulse s t
      = u16ofInt (rustRound (1450 + ((clamp100 s : ℚ) + 7) * (200 / 92))) := by
  have hc : ¬(-DEAD_ZONE ≤ clamp100 s ∧ clamp100 s ≤ DEAD_ZONE) := by
    unfold DEAD_ZONE; omega
  have hlt : clamp100 s < -DEAD_ZONE := by unfold DEAD_ZONE; omega
  simp only [speed_to_pulse, if_neg hc, if_pos hlt]
  norm_num [NEUTRAL_PULSE, DEAD_ZONE]

lemma speed_to_pulse_pos {s : ℤ} (t : Bool) (h : 7 < clamp100 s) :
    speed_to_pulse s t
      = (if t then
          saturating_add
            (u16ofInt (rustRound (1450 + ((clamp100 s : ℚ) - 7) * (750 / 92)))) 100
        else
          u16ofInt (rustRound (1450 + ((clamp100 s : ℚ) - 7) * (750 / 92)))) := by
  have hc : ¬(-DEAD_ZONE ≤ clamp100 s ∧ clamp100 s ≤ DEAD_ZONE) := by
    unfold DEAD_ZONE; omega
  have hlt : ¬(clamp100 s < -DEAD_ZONE) := by unfold DEAD_ZONE; omega
  simp only [speed_to_pulse, if_neg hc, if_neg hlt]
  cases t <;> norm_num [NEUTRAL_PULSE, DEAD_ZONE]

lemma negBranch_round_bounds {s : ℤ} (h : clamp100 s < -7) :
    1248 ≤ rustRound (1450 + ((clamp100 s : ℚ) + 7) * (200 / 92))
      ∧ rustRound (1450 + ((clamp100 s : ℚ) + 7) * (200 / 92)) ≤ 1448 := by
  have hlb := clamp100_ge s
  have hqlb : (-100 : ℚ) ≤ (clamp100 s : ℚ) := by exact_mod_cast hlb
  have hqub : (clamp100 s : ℚ) ≤ -8 := by exact_mod_cast (by omega : clamp100 s ≤ -8)
  have h0 : (0 : ℚ) ≤ 1450 + ((clamp100 s : ℚ) + 7) * (200 / 92) := by nlinarith
  constructor
  · exact le_rustRound h0 (by nlinarith)
  · exact rustRound_le h0 (by nlinarith)

lemma posBranch_round_bounds {s : ℤ} (h : 7 < clamp100 s) :
    1458 ≤ rustRound (1450 + ((clamp100 s : ℚ) - 7) * (750 / 92))
      ∧ rustRound (1450 + ((clamp100 s : ℚ) - 7) * (750 / 92)) ≤ 2208 := by
  have hub := clamp100_le s
  have hqub : (clamp100 s : ℚ) ≤ 100 := by exact_mod_cast hub
  have hqlb : (8 : ℚ) ≤ (clamp100 s : ℚ) := by exact_mod_cast (by omega : 8 ≤ clamp100 s)
  have h0 : (0 : ℚ) ≤ 1450 + ((clamp100 s : ℚ) - 7) * (750 / 92) := by nlinarith
  constructor
  · exact le_rustRound h0 (by nlinarith)
  · exact rustRound_le h0 (by nlinarith)

lemma speed_to_pulse_neg_bounds {s : ℤ} (t : Bool) (h : clamp100 s < -7) :
    1248 ≤ speed_to_pulse s t ∧ speed_to_pulse s t ≤ 1448 := by
  rw [speed_to_pulse_neg t h]
  obtain ⟨h1, h2⟩ := negBranch_round_bounds h
  rw [u16ofInt_eq_self (by omega) (by omega)]
  omega

lemma speed_to_pulse_pos_bounds {s : ℤ} (t : Bool) (h : 7 < clamp100 s) :
    1458 ≤ speed_to_pulse s t ∧ speed_to_pulse s t ≤ 2308 := by
  rw [speed_to_pulse_pos t h]
  obtain ⟨h1, h2⟩ := posBranch_round_bounds h
  rw [u16ofInt_eq_self (by omega) (by omega)]
  cases t
  · simpa using ⟨h1, by omega⟩
  · simp only [if_pos]
    rw [saturating_add_eq (by omega)]
    omega

lemma u16_round_bounds {q : ℚ} {lo hi : ℤ} (h0 : 0 ≤ q)
    (hl : (lo : ℚ) - 1/2 ≤ q) (hh : q < (hi : ℚ) + 1/2)
    (hlo : 0 ≤ lo) (hhi : hi ≤ 65535) :
    lo ≤ u16ofInt (rustRound q) ∧ u16ofInt (rustRound q) ≤ hi := by
  have l := le_rustRound h0 hl
  have u := rustRound_le h0 hh
  unfold u16ofInt; omega

/-- C1: the spec's claim that both linear legs of `speed_to_pulse` use the
slopes `200/93` and `750/93` is false: the source computes the denominator
as `100 - (DEAD_ZONE + 1) = 92`.  At `speed = -100` the 93-slope formula
gives 1250 while the code gives 1248; at `speed = 11` it gives 1482 while
the code gives 1483. -/
theorem c1_counterexample :
    speed_to_pulse (-100) false
      ≠ u16ofInt (rustRound (1450 + ((clamp100 (-100) : ℚ) + 7) * (200 / 93)))
    ∧ speed_to_pulse 11 false
      ≠ u16ofInt (rustRound (1450 + ((clamp100 11 : ℚ) - 7) * (750 / 93))) := by
  constructor <;>
    norm_num [speed_to_pulse, clamp100, u16ofInt, rustRound, NEUTRAL_PULSE, DEAD_ZONE]

/-- C1 (amended): for clamped value `x` strictly below `-7`,
`speed_to_pulse` equals `round(1450 + (x + 7) * (200/92))` (for either
turbo flag, no turbo adjustment on this leg), and for clamped `x` strictly
above `7` it equals `round(1450 + (x - 7) * (750/92))` before the turbo
adjustment: the slope denominators are `92 = 100 - (7 + 1)`, not 93. -/
theorem c1_speed_to_pulse_slopes (s : ℤ) (t : Bool) :
    (clamp100 s < -7 →
      speed_to_pulse s t
        = u16ofInt (rustRound (1450 + ((clamp100 s : ℚ) + 7) * (200 / 92))))
    ∧ (7 < clamp100 s →
      speed_to_pulse s false
        = u16ofInt (rustRound (1450 + ((clamp100 s : ℚ) - 7) * (750 / 92)))) := by
  refine ⟨fun h => speed_to_pulse_neg t h, fun h => ?_⟩
  simpa using speed_to_pulse_pos false h

/-- Witness for C1 at `speed = -50` (reverse leg) and `speed = 50`
(forward leg). -/
theorem c1_speed_to_pulse_slopes_witness :
    (clamp100 (-50) < -7
      ∧ speed_to_pulse (-50) false
          = u16ofInt (rustRound (1450 + ((clamp100 (-50) : ℚ) + 7) * (200 / 92))))
    ∧ (7 < clamp100 50
      ∧ speed_to_pulse 50 false
          = u16ofInt (rustRound (1450 + ((clamp100 50 : ℚ) - 7) * (750 / 92)))) :=
  ⟨⟨by decide, (c1_speed_to_pulse_slopes (-50) false).1 (by decide)⟩,
   ⟨by decide, (c1_speed_to_pulse_slopes 50 false).2 (by decide)⟩⟩

/-- C2: for every speed whose clamped value lies in the dead zone
`[-7, 7]` and both turbo flags, `speed_to_pulse` returns exactly the
neutral pulse 1450, independent of turbo. -/
theorem c2_dead_zone_neutral (s : ℤ) (t : Bool)
    (h1 : -7 ≤ clamp100 s) (h2 : clamp100 s ≤ 7) :
    speed_to_pulse s t = 1450 :=
  speed_to_pulse_dead t h1 h2

/-- Witness for C2 at `speed = 0`, turbo on. -/
theorem c2_dead_zone_neutral_witness :
    -7 ≤ clamp100 0 ∧ clamp100 0 ≤ 7 ∧ speed_to_pulse 0 true = 1450 :=
  ⟨by decide, by decide, c2_dead_zone_neutral 0 true (by decide) (by decide)⟩

/-- C3: the spec's claim that on the reverse leg turbo subtracts 100 is
false: the reverse branch of the source ignores `turbo` entirely.  At
`speed = -100` both turbo values give 1248. -/
theorem c3_counterexample :
    ¬ speed_to_pulse (-100) true = speed_to_pulse (-100) false - 100 := by
  norm_num [speed_to_pulse, clamp100, u16ofInt, rustRound, NEUTRAL_PULSE, DEAD_ZONE]

/-- C3 (amended): for every speed with clamped value strictly below `-7`,
the turbo flag does not change the result of `speed_to_pulse` at all (the
turbo offset applies only on the forward leg). -/
theorem c3_reverse_turbo_no_effect (s : ℤ) (h : clamp100 s < -7) :
    speed_to_pulse s true = speed_to_pulse s false := by
  rw [speed_to_pulse_neg true h, speed_to_pulse_neg false h]

/-- Witness for C3 at `speed = -100`. -/
theorem c3_reverse_turbo_no_effect_witness :
    clamp100 (-100) < -7 ∧ speed_to_pulse (-100) true = speed_to_pulse (-100) false :=
  ⟨by decide, c3_reverse_turbo_no_effect (-100) (by decide)⟩

/-- C4: for clamped value strictly above 7, turbo adds exactly 100 via the
saturating `u16` addition (which never wraps, and here never saturates
since the turbo-off pulse is at most 2208), and in the dead zone the turbo
flag does not change the result. -/
theorem c4_turbo_adds_100 (s : ℤ) :
    (7 < clamp100 s →
      speed_to_pulse s true = saturating_add (speed_to_pulse s false) 100
      ∧ speed_to_pulse s true = speed_to_pulse s false + 100)
    ∧ (-7 ≤ clamp100 s → clamp100 s ≤ 7 →
      speed_to_pulse s true = speed_to_pulse s false) := by
  constructor
  · intro h
    obtain ⟨hl, hu⟩ := posBranch_round_bounds h
    have hfalse := speed_to_pulse_pos false h
    have htrue := speed_to_pulse_pos true h
    simp only [if_true, if_false, Bool.false_eq_true] at hfalse htrue
    rw [u16ofInt_eq_self (by omega) (by omega)] at hfalse htrue
    constructor
    · rw [htrue, hfalse]
    · rw [htrue, hfalse, saturating_add_eq (by omega)]
  · intro h1 h2
    rw [speed_to_pulse_dead true h1 h2, speed_to_pulse_dead false h1 h2]

/-- Witness for C4 at `speed = 50` (forward leg) and `speed = 3`
(dead zone). -/
theorem c4_turbo_adds_100_witness :
    (7 < clamp100 50
      ∧ speed_to_pulse 50 true = saturating_add (speed_to_pulse 50 false) 100
      ∧ speed_to_pulse 50 true = speed_to_pulse 50 false + 100)
    ∧ (-7 ≤ clamp100 3 ∧ clamp100 3 ≤ 7
      ∧ speed_to_pulse 3 true = speed_to_pulse 3 false) :=
  ⟨⟨by decide, (c4_turbo_adds_100 50).1 (by decide)⟩,
   ⟨by decide, by decide, (c4_turbo_adds_100 3).2 (by decide) (by decide)⟩⟩

/-- C5: `direction_to_pulse 0` is the rounded midpoint blend of each
axle's two extreme pulses, namely `(728, 1780)`; `direction_to_pulse
(-100)` is exactly the declared left extremes `(1150, 1375)` and
`direction_to_pulse 100` exactly the declared right extremes
`(305, 2185)`. -/
theorem c5_direction_extremes :
    direction_to_pulse 0
      = (u16ofInt (rustRound (((FRONT_LEFT_PULSE : ℚ) + (FRONT_RIGHT_PULSE : ℚ)) / 2)),
         u16ofInt (rustRound (((BACK_LEFT_PULSE : ℚ) + (BACK_RIGHT_PULSE : ℚ)) / 2)))
    ∧ direction_to_pulse 0 = (728, 1780)
    ∧ direction_to_pulse (-100) = ((FRONT_LEFT_PULSE : ℤ), (BACK_LEFT_PULSE : ℤ))
    ∧ direction_to_pulse 100 = ((FRONT_RIGHT_PULSE : ℤ), (BACK_RIGHT_PULSE : ℤ)) := by
  refine ⟨?_, ?_, ?_, ?_⟩ <;>
    norm_num [direction_to_pulse, clamp100, u16ofInt, rustRound, FRONT_LEFT_PULSE,
      FRONT_RIGHT_PULSE, BACK_LEFT_PULSE, BACK_RIGHT_PULSE]

/-- C6: for a fixed turbo flag, `speed_to_pulse` is monotonic
non-decreasing in speed over all inputs whose clamped values lie outside
the dead zone `[-7, 7]`. -/
theorem c6_speed_monotone (s1 s2 : ℤ) (t : Bool) (h : s1 ≤ s2)
    (h1 : clamp100 s1 < -7 ∨ 7 < clamp100 s1)
    (h2 : clamp100 s2 < -7 ∨ 7 < clamp100 s2) :
    speed_to_pulse s1 t ≤ speed_to_pulse s2 t := by
  have hc := clamp100_mono h
  rcases h1 with h1 | h1 <;> rcases h2 with h2 | h2
  · rw [speed_to_pulse_neg t h1, speed_to_pulse_neg t h2]
    apply u16ofInt_mono
    apply rustRound_mono
    have hq : (clamp100 s1 : ℚ) ≤ (clamp100 s2 : ℚ) := by exact_mod_cast hc
    nlinarith
  · obtain ⟨_, b1⟩ := speed_to_pulse_neg_bounds t h1
    obtain ⟨b2, _⟩ := speed_to_pulse_pos_bounds t h2
    omega
  · omega
  · rw [speed_to_pulse_pos t h1, speed_to_pulse_pos t h2]
    have hq : (clamp100 s1 : ℚ) ≤ (clamp100 s2 : ℚ) := by exact_mod_cast hc
    have hle := u16ofInt_mono (rustRound_mono (by nlinarith :
      1450 + ((clamp100 s1 : ℚ) - 7) * (750 / 92)
        ≤ 1450 + ((clamp100 s2 : ℚ) - 7) * (750 / 92)))
    cases t
    · simpa using hle
    · simpa using saturating_add_mono_left hle

/-- Witness for C6 at `s1 = -100 ≤ s2 = 50`, turbo on. -/
theorem c6_speed_monotone_witness :
    (-100 : ℤ) ≤ 50
    ∧ (clamp100 (-100) < -7 ∨ 7 < clamp100 (-100))
    ∧ (clamp100 50 < -7 ∨ 7 < clamp100 50)
    ∧ speed_to_pulse (-100) true ≤ speed_to_pulse 50 true :=
  ⟨by decide, by decide, by decide,
   c6_speed_monotone (-100) 50 true (by decide) (by decide) (by decide)⟩

/-- C7: both pulse mappers are total functions of their integer input (they
are plain Lean functions, defined for every input), and outside
`[-100, 100]` the result equals the result at the clamped boundary. -/
theorem c7_total_clamp (s d : ℤ) (t : Bool) :
    speed_to_pulse s t = speed_to_pulse (clamp100 s) t
    ∧ direction_to_pulse d = direction_to_pulse (clamp100 d) := by
  constructor
  · simp only [speed_to_pulse, clamp100_idem]
  · simp only [direction_to_pulse, clamp100_idem]

lemma direction_to_pulse_bounds (d : ℤ) :
    (305 ≤ (direction_to_pulse d).1 ∧ (direction_to_pulse d).1 ≤ 1150)
    ∧ (1375 ≤ (direction_to_pulse d).2 ∧ (direction_to_pulse d).2 ≤ 2185) := by
  have hq1 : (-100 : ℚ) ≤ (clamp100 d : ℚ) := by exact_mod_cast clamp100_ge d
  have hq2 : (clamp100 d : ℚ) ≤ 100 := by exact_mod_cast clamp100_le d
  simp only [direction_to_pulse, FRONT_LEFT_PULSE, FRONT_RIGHT_PULSE,
    BACK_LEFT_PULSE, BACK_RIGHT_PULSE]
  push_cast
  constructor
  · exact u16_round_bounds (by nlinarith) (by push_cast; nlinarith)
      (by push_cast; nlinarith) (by omega) (by omega)
  · exact u16_round_bounds (by nlinarith) (by push_cast; nlinarith)
      (by push_cast; nlinarith) (by omega) (by omega)

/-- C10: for every integer speed and both turbo flags the final
`speed_to_pulse` result lies in `[1248, 2308]`, and for every integer
direction the two components of `direction_to_pulse` lie between that
axle's two extreme constants (front in `[305, 1150]`, back in
`[1375, 2185]`); in particular every value fed to the unsigned `u16` cast
is non-negative and far below 65535, so the casts never truncate or
wrap. -/
theorem c10_pulse_bounds (s d : ℤ) (t : Bool) :
    (1248 ≤ speed_to_pulse s t ∧ speed_to_pulse s t ≤ 2308)
    ∧ (305 ≤ (direction_to_pulse d).1 ∧ (direction_to_pulse d).1 ≤ 1150)
    ∧ (1375 ≤ (direction_to_pulse d).2 ∧ (direction_to_pulse d).2 ≤ 2185) := by
  refine ⟨?_, (direction_to_pulse_bounds d).1, (direction_to_pulse_bounds d).2⟩
  rcases lt_trichotomy (clamp100 s) (-7) with h | h | h
  · obtain ⟨h1, h2⟩ := speed_to_pulse_neg_bounds t h
    omega
  · rw [speed_to_pulse_dead t (by omega) (by omega)]; omega
  · rcases le_or_lt (clamp100 s) 7 with h7 | h7
    · rw [speed_to_pulse_dead t (by omega) h7]; omega
    · obtain ⟨h1, h2⟩ := speed_to_pulse_pos_bounds t h7
      omega

lemma step_pins (st : LoopState) (c : CommandPayload) :
    (step st c).1.hornAvailable = st.hornAvailable
    ∧ (step st c).1.lightsAvailable = st.lightsAvailable := by
  unfold step
  rcases c with ⟨cmd, v⟩
  cases v <;>
    simp [JsonValue.as_i64, JsonValue.as_bool] <;>
    split_ifs <;>
    simp

lemma finalState_pins (st : LoopState) (cmds : List CommandPayload) :
    (finalState st cmds).hornAvailable = st.hornAvailable
    ∧ (finalState st cmds).lightsAvailable = st.lightsAvailable := by
  induction cmds generalizing st with
  | nil => exact ⟨rfl, rfl⟩
  | cons c rest ih =>
    obtain ⟨h1, h2⟩ := step_pins st c
    obtain ⟨h3, h4⟩ := ih (step st c).1
    exact ⟨by rw [finalState, h3, h1], by rw [finalState, h4, h2]⟩

lemma runLoop_eq_steps_append (st : LoopState) (cmds : List CommandPayload) :
    runLoop st cmds = stepsActions st cmds ++ shutdownActions (finalState st cmds) := by
  induction cmds generalizing st with
  | nil => simp [runLoop, stepsActions, finalState]
  | cons c rest ih =>
    simp only [runLoop, stepsActions, finalState, ih, List.append_assoc]

/-- C8: when the command channel closes (the command list ends), the
control loop exits its receive loop and, when both output pins are
available, appends the safe-shutdown actuation sequence exactly once after
the in-loop actuations: both steering channels to the calibration-neutral
pulses `direction_to_pulse 0`, the motor channel to `speed_to_pulse 0
false` (which is the neutral pulse 1450), then lights and horn low. -/
theorem c8_shutdown_sequence (st : LoopState) (cmds : List CommandPayload)
    (hh : st.hornAvailable = true) (hl : st.lightsAvailable = true) :
    runLoop st cmds
      = stepsActions st cmds
        ++ [Action.setPwm FRONT_STEERING_CHANNEL 0 (direction_to_pulse 0).1,
            Action.setPwm BACK_STEERING_CHANNEL 0 (direction_to_pulse 0).2,
            Action.setPwm MOTOR_CHANNEL 0 (speed_to_pulse 0 false),
            Action.setLow LIGHTS_PIN,
            Action.setLow HORN_PIN]
    ∧ speed_to_pulse 0 false = 1450 := by
  refine ⟨?_, speed_to_pulse_dead false (by decide) (by decide)⟩
  rw [runLoop_eq_steps_append]
  obtain ⟨h1, h2⟩ := finalState_pins st cmds
  unfold shutdownActions
  rw [h1, h2, hh, hl]
  simp

/-- Witness for C8 with both pins available and an empty command list. -/
theorem c8_shutdown_sequence_witness :
    (LoopState.mk false true true).hornAvailable = true
    ∧ (LoopState.mk false true true).lightsAvailable = true
    ∧ (runLoop (LoopState.mk false true true) []
        = stepsActions (LoopState.mk false true true) []
          ++ [Action.setPwm FRONT_STEERING_CHANNEL 0 (direction_to_pulse 0).1,
              Action.setPwm BACK_STEERING_CHANNEL 0 (direction_to_pulse 0).2,
              Action.setPwm MOTOR_CHANNEL 0 (speed_to_pulse 0 false),
              Action.setLow LIGHTS_PIN,
              Action.setLow HORN_PIN]
      ∧ speed_to_pulse 0 false = 1450) :=
  ⟨rfl, rfl, c8_shutdown_sequence (LoopState.mk false true true) [] rfl rfl⟩

/-- C9: a received command whose value does not parse as the expected
scalar type (an integer for `speed`/`direction`, a boolean for
`headlights`/`horn`/`turbo`) causes no actuation call, leaves the loop
state (in particular the turbo flag) unchanged, and the loop goes on to
process the remaining commands as if the malformed one had not been
sent. -/
theorem c9_malformed_ignored (st : LoopState) (c : CommandPayload)
    (rest : List CommandPayload)
    (h : ((c.command = "speed" ∨ c.command = "direction")
            ∧ c.value.as_i64 = none)
       ∨ ((c.command = "headlights" ∨ c.command = "horn" ∨ c.command = "turbo")
            ∧ c.value.as_bool = none)) :
    step st c = (st, []) ∧ runLoop st (c :: rest) = runLoop st rest := by
  have hstep : step st c = (st, []) := by
    rcases h with ⟨hcmd | hcmd, hv⟩ | ⟨hcmd | hcmd | hcmd, hv⟩ <;>
      simp [step, hcmd, hv]
  refine ⟨hstep, ?_⟩
  simp only [runLoop, hstep, List.nil_append]

/-- Witness for C9: the spec's own example, a `speed` command whose value
is the string `"fast"`. -/
theorem c9_malformed_ignored_witness :
    (((CommandPayload.mk "speed" (JsonValue.str "fast")).command = "speed"
        ∨ (CommandPayload.mk "speed" (JsonValue.str "fast")).command = "direction")
      ∧ (CommandPayload.mk "speed" (JsonValue.str "fast")).value.as_i64 = none
     ∨ (((CommandPayload.mk "speed" (JsonValue.str "fast")).command = "headlights"
        ∨ (CommandPayload.mk "speed" (JsonValue.str "fast")).command = "horn"
        ∨ (CommandPayload.mk "speed" (JsonValue.str "fast")).command = "turbo")
      ∧ (CommandPayload.mk "speed" (JsonValue.str "fast")).value.as_bool = none))
    ∧ step (LoopState.mk false true true) (CommandPayload.mk "speed" (JsonValue.str "fast"))
        = (LoopState.mk false true true, [])
    ∧ runLoop (LoopState.mk false true true)
        [CommandPayload.mk "speed" (JsonValue.str "fast")]
        = runLoop (LoopState.mk false true true) [] :=
  ⟨by decide,
   c9_malformed_ignored (LoopState.mk false true true)
     (CommandPayload.mk "speed" (JsonValue.str "fast")) [] (by decide)⟩


end RobotCore
